import Mathlib

/-!
Shallow embedding of `src/simulation.py` (module `simulation`): the
`ProcessManager` class with its nested `Process` class, and the registry
operations `startProcessFromFileName`, `stopProcess`, `stopAllProcesses`.

Operating-system interaction (`os.path.exists`, `os.path.normpath`,
`os.path.basename`, `os.path.join`, `os.getcwd`, `open(..., 'w')`,
`subprocess.Popen`, `handler.wait(20)`) is abstracted into an `OSEnv`
record of pure functions; every theorem quantifies over the environment.
Side effects (file creation, spawn, terminate, wait, kill, log messages)
are recorded in an explicit `World` trace threaded through the
operations, so that claims about "a log file is created" or "a forced
kill is issued" become statements about the trace.

Python exceptions are modelled with `Except PyError`; the attribute
`self._processHandler`, which is `None` before a successful start and is
removed with `del` by `stop`, is modelled as `Option (Option Nat)`:
`none` is the deleted attribute (access raises `AttributeError`),
`some none` is the attribute holding `None`, `some (some h)` is the
attribute holding a live OS handle `h`.
-/

namespace Simulation

/-- Python exception classes that the embedded code can raise. -/
inductive PyError where
  | fileNotFound (msg : String)
  | valueError (msg : String)
  | ioError (msg : String)
  | assertionError (msg : String)
  | attributeError (msg : String)
  deriving Repr, DecidableEq

/-- Observable operating-system effects performed by the code. -/
inductive OSEvent where
  | openFile (path : String)
  | spawn (file : String) (cwd : String) (stdout : String) (stderr : String) (h : Nat)
  | terminate (h : Nat)
  | wait (h : Nat) (timeout : Nat)
  | kill (h : Nat)
  deriving Repr, DecidableEq

/-- Messages emitted to the `SimuLogger` logging facade. -/
inductive LogEvent where
  | warning (msg : String)
  | info (msg : String)
  deriving Repr, DecidableEq

/-- Trace of side effects accumulated while the embedded code runs. -/
structure World where
  events : List OSEvent
  logs : List LogEvent
  deriving Repr, DecidableEq

def World.empty : World := ⟨[], []⟩

/-- Abstraction of the operating-system services the code calls.
`pathExists` models `os.path.exists`, `normpath` models
`os.path.normpath`, `basename` models `os.path.basename`, `joinPath`
models `os.path.join`, `getcwd` models `os.getcwd()`, `openOk` tells
whether `open(path, 'w')` succeeds, `spawnResult` gives the outcome of
`subprocess.Popen` (an error description or a fresh handle), and
`waitResult` gives the outcome of `handler.wait(timeout)`: `some code`
when the process exits within the timeout, `none` when
`subprocess.TimeoutExpired` is raised. -/
structure OSEnv where
  pathExists : String → Bool
  normpath : String → String
  basename : String → String
  joinPath : String → String → String
  getcwd : String
  openOk : String → Bool
  spawnResult : String → String → Except String Nat
  waitResult : Nat → Nat → Option Int

/-- Python `str.split` with separator a single dot, on a list of
characters: splits at every occurrence of the separator, keeping empty
pieces. -/
def splitDotAux : List Char → List Char → List String
  | [], acc => [String.mk acc.reverse]
  | c :: rest, acc =>
    if c = '.' then String.mk acc.reverse :: splitDotAux rest []
    else splitDotAux rest (c :: acc)

/-- Python `s.split('.')`: always returns at least one piece; returns
exactly the pieces between the dots. -/
def splitDot (s : String) : List String := splitDotAux s.data []

/-- Embedding of `ProcessManager.Process`: the state of a fully
constructed process object. `processHandler` is the three-state
attribute model described in the module docstring. -/
structure Process where
  filename : String
  id : String
  name : String
  workingDirectory : String
  stdFile : String
  processHandler : Option (Option Nat)
  deriving Repr, DecidableEq

namespace Process

/-- Class attribute `_STD_FILE_EXT = ".log"`. -/
def STD_FILE_EXT : String := ".log"

/-- Embedding of `Process.getProcessHandler`: reading the attribute
raises `AttributeError` after `del`, otherwise returns its value. -/
def getProcessHandler (p : Process) : Except PyError (Option Nat) :=
  match p.processHandler with
  | some v => .ok v
  | none => .error (.attributeError "Process object has no attribute processHandler")

/-- Embedding of `Process.__validateFileName`: raise `FileNotFoundError`
when the filename does not exist; otherwise normalize it and derive the
process name as its base name. Returns (normalized filename, name). -/
def validateFileName (env : OSEnv) (filename : String) :
    Except PyError (String × String) :=
  if env.pathExists filename then
    let f := env.normpath filename
    .ok (f, env.basename f)
  else
    .error (.fileNotFound ("File does not exists: \x22" ++ filename ++ "\x22"))

/-- Embedding of `Process.__validateWorkingDirectory`: raise
`FileNotFoundError` when the supplied working directory does not exist;
otherwise normalize it. -/
def validateWorkingDirectory (env : OSEnv) (wd : String) :
    Except PyError String :=
  if env.pathExists wd then
    .ok (env.normpath wd)
  else
    .error (.fileNotFound ("Working directory does not exists: \x22" ++ wd ++ "\x22"))

/-- Embedding of `Process.__configureStdFile`: unpack
`name, ext = self.getName().split('.')` (raising `ValueError` unless the
split yields exactly two pieces), build the std filename
`normpath(join(workingDirectory, name + ".log"))`, and open it in write
mode (recording the file creation in the world; a failing `open` raises
an IO error). Returns the std file. -/
def configureStdFile (env : OSEnv) (procName wd : String) (w : World) :
    World × Except PyError String :=
  match splitDot procName with
  | [n, _ext] =>
    let std := env.normpath (env.joinPath wd (n ++ STD_FILE_EXT))
    if env.openOk std then
      ({ w with events := w.events ++ [.openFile std] }, .ok std)
    else
      (w, .error (.ioError ("could not open: \x22" ++ std ++ "\x22")))
  | parts =>
    (w, .error (.valueError
      (if parts.length < 2 then
        "not enough values to unpack (expected 2, got " ++ toString parts.length ++ ")"
      else
        "too many values to unpack (expected 2)")))

/-- Embedding of `Process.__init__`: validate the filename, resolve the
working directory (defaulting to the current directory with a warning
when omitted, validating existence when supplied), configure the std
file, and log the creation.  An exception leaves the world with exactly
the effects performed before the raise. -/
def init (env : OSEnv) (filename id : String) (workingDirectory : Option String)
    (w : World) : World × Except PyError Process :=
  match validateFileName env filename with
  | .error e => (w, .error e)
  | .ok (f, nm) =>
    let resolved : World × Except PyError String :=
      match workingDirectory with
      | none =>
        let wd := env.getcwd
        ({ w with logs := w.logs ++ [.warning
          ("No working directory configured for process: \x22" ++ nm ++
           "\x22 Current working directory will be used: \x22" ++ wd ++ "\x22")] },
         .ok wd)
      | some d =>
        match validateWorkingDirectory env d with
        | .ok wd => (w, .ok wd)
        | .error e => (w, .error e)
    match resolved with
    | (w1, .error e) => (w1, .error e)
    | (w1, .ok wd) =>
      match configureStdFile env nm wd w1 with
      | (w2, .error e) => (w2, .error e)
      | (w2, .ok std) =>
        ({ w2 with logs := w2.logs ++ [.info ("New process created: \x22" ++ f ++ "\x22")] },
         .ok { filename := f, id := id, name := nm, workingDirectory := wd,
               stdFile := std, processHandler := some none })

/-- Embedding of `Process.start`: attempt
`subprocess.Popen(filename, cwd=workingDirectory, stdout=stdFile,
stderr=stdFile)`. On success the handle is stored and an informational
message logged; on failure the handler is set to `None` and the error
description is returned. Returns (world, updated process, errorMsg). -/
def start (env : OSEnv) (p : Process) (w : World) :
    World × Process × Option String :=
  match env.spawnResult p.filename p.workingDirectory with
  | .ok h =>
    ({ w with
        events := w.events ++ [.spawn p.filename p.workingDirectory p.stdFile p.stdFile h],
        logs := w.logs ++ [.info ("Process \x22" ++ p.name ++ "\x22 started")] },
     { p with processHandler := some (some h) }, none)
  | .error detail =>
    (w, { p with processHandler := some none }, some detail)

/-- Embedding of `Process.stop`: `self._processHandler.terminate()`
(raising `AttributeError` when the attribute is `None` or deleted), then
`wait(20)`; if the process exits within the timeout log the result code,
otherwise on `TimeoutExpired` kill it; in both cases
`del self._processHandler`. -/
def stop (env : OSEnv) (p : Process) (w : World) :
    World × Except PyError Process :=
  match p.processHandler with
  | none =>
    (w, .error (.attributeError "Process object has no attribute processHandler"))
  | some none =>
    (w, .error (.attributeError "NoneType object has no attribute terminate"))
  | some (some h) =>
    let w1 : World := { w with events := w.events ++ [.terminate h, .wait h 20] }
    match env.waitResult h 20 with
    | some code =>
      ({ w1 with logs := w1.logs ++ [.info
          ("Process \x22" ++ p.name ++ "\x22 terminated with result code: " ++ toString code)] },
       .ok { p with processHandler := none })
    | none =>
      ({ w1 with
          events := w1.events ++ [.kill h],
          logs := w1.logs ++ [.info ("Process \x22" ++ p.name ++ "\x22 killed")] },
       .ok { p with processHandler := none })

end Process

/-- Lookup in a Python-dict-like association list (`id in container.keys()`). -/
def dictMem (k : String) : List (String × Process) → Bool
  | [] => false
  | (k', _) :: rest => k' = k || dictMem k rest

/-- Python `dict[k] = v`: replace the value at an existing key in place,
or append a new binding at the end. -/
def dictInsert (k : String) (v : Process) :
    List (String × Process) → List (String × Process)
  | [] => [(k, v)]
  | (k', v') :: rest =>
    if k' = k then (k, v) :: rest else (k', v') :: dictInsert k v rest

/-- Python `dict.pop(k)`: the removed value and the remaining bindings. -/
def dictPop (k : String) :
    List (String × Process) → Option (Process × List (String × Process))
  | [] => none
  | (k', v) :: rest =>
    if k' = k then some (v, rest)
    else (dictPop k rest).map (fun pr => (pr.1, (k', v) :: pr.2))

/-- Python `dict[k]` as an optional lookup. -/
def dictLookup (k : String) : List (String × Process) → Option Process
  | [] => none
  | (k', v) :: rest => if k' = k then some v else dictLookup k rest

/-- Embedding of the `ProcessManager` manager object: the `init` flag set
by the constructor and the `processContainer` dictionary, modelled as an
association list in insertion order. -/
structure ProcessManager where
  init : Bool
  processContainer : List (String × Process)
  deriving Repr, DecidableEq

namespace ProcessManager

/-- Embedding of `ProcessManager.__init__`. -/
def new : ProcessManager := ⟨true, []⟩

/-- Embedding of `ProcessManager._startProcess` composed into
`startProcessFromFileName`: construct the process (any constructor
exception is caught and returned), start it (a start failure is wrapped
into an `AssertionError` naming the process and the detail, and the
process is not inserted), and on success insert the process into the
container keyed by its id. Returns (world, manager, process, errorMsg)
mirroring the Python `return process, errorMsg`. -/
def startProcessFromFileName (env : OSEnv) (mgr : ProcessManager)
    (filename id : String) (workingDirectory : Option String) (w : World) :
    World × ProcessManager × Option Process × Option PyError :=
  match Process.init env filename id workingDirectory w with
  | (w1, .error e) => (w1, mgr, none, some e)
  | (w1, .ok proc) =>
    match Process.start env proc w1 with
    | (w2, proc2, some detail) =>
      (w2, mgr, some proc2, some (.assertionError
        ("Process \x22" ++ proc2.name ++ "\x22 could not be started: " ++ detail)))
    | (w2, proc2, none) =>
      (w2, { mgr with processContainer := dictInsert proc2.id proc2 mgr.processContainer },
       some proc2, none)

/-- Embedding of `ProcessManager.stopProcess`: when the id is in the
container, pop it and stop the popped process (an exception from `stop`
propagates uncaught, with the entry already removed); otherwise return
the error message naming the id. The third component is `.ok none` for
success, `.ok (some msg)` for a returned error message, and `.error e`
for an uncaught exception. -/
def stopProcess (env : OSEnv) (mgr : ProcessManager) (id : String) (w : World) :
    World × ProcessManager × Except PyError (Option String) :=
  match dictPop id mgr.processContainer with
  | some (proc, rest) =>
    match Process.stop env proc w with
    | (w1, .ok _) => (w1, { mgr with processContainer := rest }, .ok none)
    | (w1, .error e) => (w1, { mgr with processContainer := rest }, .error e)
  | none =>
    (w, mgr, .ok (some ("No process ID with name: \x22" ++ id ++ "\x22")))

/-- Stop every process of the container in order, threading the world;
an exception from one `stop` aborts the loop, leaving the processes
already stopped updated and the rest untouched. Returns the world, the
container entries as they stand after the loop, and the exception if
one was raised. -/
def stopEach (env : OSEnv) :
    List (String × Process) → World →
    World × List (String × Process) × Option PyError
  | [], w => (w, [], none)
  | (k, p) :: rest, w =>
    match Process.stop env p w with
    | (w1, .ok p') =>
      match stopEach env rest w1 with
      | (w2, rest', e) => (w2, (k, p') :: rest', e)
    | (w1, .error e) => (w1, (k, p) :: rest, some e)

/-- Embedding of `ProcessManager.stopAllProcesses`: when the container is
empty return the notice message; otherwise stop every contained process
and clear the container (an exception from a `stop` propagates, skipping
the clear). -/
def stopAllProcesses (env : OSEnv) (mgr : ProcessManager) (w : World) :
    World × ProcessManager × Except PyError (Option String) :=
  if mgr.processContainer.isEmpty then
    (w, mgr, .ok (some "There is no simulation process currently running to be stopped"))
  else
    match stopEach env mgr.processContainer w with
    | (w1, _, none) => (w1, { mgr with processContainer := [] }, .ok none)
    | (w1, entries, some e) => (w1, { mgr with processContainer := entries }, .error e)

end ProcessManager

/-- Registry operations, for stating invariants over arbitrary operation
sequences. -/
inductive MgrOp where
  | startOp (filename id : String) (workingDirectory : Option String)
  | stopOp (id : String)
  | stopAllOp
  deriving Repr, DecidableEq

/-- Apply one registry operation to a (manager, world) state, keeping the
resulting manager and world and discarding the returned values. -/
def ProcessManager.applyOp (env : OSEnv) (st : ProcessManager × World) :
    MgrOp → ProcessManager × World
  | .startOp f i wd =>
    match ProcessManager.startProcessFromFileName env st.1 f i wd st.2 with
    | (w1, mgr1, _, _) => (mgr1, w1)
  | .stopOp i =>
    match ProcessManager.stopProcess env st.1 i st.2 with
    | (w1, mgr1, _) => (mgr1, w1)
  | .stopAllOp =>
    match ProcessManager.stopAllProcesses env st.1 st.2 with
    | (w1, mgr1, _) => (mgr1, w1)

/-- Run a sequence of registry operations from a starting state. -/
def ProcessManager.runOps (env : OSEnv) (ops : List MgrOp)
    (st : ProcessManager × World) : ProcessManager × World :=
  ops.foldl (ProcessManager.applyOp env) st

/-- The container holds no two entries with the same id. -/
def keysNodup (c : List (String × Process)) : Prop :=
  (c.map Prod.fst).Nodup

/-- Recognizer for warning-level log messages. -/
def LogEvent.isWarning : LogEvent → Bool
  | .warning _ => true
  | .info _ => false

/-- Python exception class name of a modelled error. -/
def PyError.kind : PyError → String
  | .fileNotFound _ => "FileNotFoundError"
  | .valueError _ => "ValueError"
  | .ioError _ => "OSError"
  | .assertionError _ => "AssertionError"
  | .attributeError _ => "AttributeError"

/-- Exception class name of the outcome of a construction, `none` on
success. -/
def exceptKind (r : Except PyError Process) : Option String :=
  match r with
  | .ok _ => none
  | .error e => some e.kind

/-- Concrete test environment used by the witnesses: the executables
`sim/app.exe`, `sim/fail.exe`, `sim/plain` and the directory `sim`
exist; the current working directory `cwd` does NOT exist; any file can
be opened for writing; spawning succeeds (with handle 7) only for
`sim/app.exe`; every wait sees the process exit with code 0. -/
def testEnv : OSEnv where
  pathExists s := s = "sim/app.exe" || s = "sim" || s = "sim/plain" || s = "sim/fail.exe"
  normpath s := s
  basename s :=
    if s = "sim/app.exe" then "app.exe"
    else if s = "sim/plain" then "plain"
    else if s = "sim/fail.exe" then "fail.exe"
    else s
  joinPath a b := a ++ "/" ++ b
  getcwd := "cwd"
  openOk _ := true
  spawnResult f _ := if f = "sim/app.exe" then .ok 7 else .error "spawn failed"
  waitResult _ _ := some 0

/-- Variant of the test environment in which no process exits within the
wait timeout. -/
def testEnvTimeout : OSEnv :=
  { testEnv with waitResult := fun _ _ => none }

/-- A freshly constructed (not yet started) process for `sim/app.exe`. -/
def procA : Process where
  filename := "sim/app.exe"
  id := "JCP"
  name := "app.exe"
  workingDirectory := "sim"
  stdFile := "sim/app.log"
  processHandler := some none

/-- The same process after a successful start with OS handle 7. -/
def procRun : Process :=
  { procA with processHandler := some (some 7) }

/-- A manager whose container already holds an entry for id `JCP`. -/
def mgrDup : ProcessManager where
  init := true
  processContainer := [("JCP", procRun)]

/-- The world trace left by constructing `procA` from an empty world. -/
def worldApp : World where
  events := [.openFile "sim/app.log"]
  logs := [.info ("New process created: \x22" ++ "sim/app.exe" ++ "\x22")]

/-- The process constructed for `sim/app.exe` with the working directory
omitted (defaulted to the non-existent current directory `cwd`). -/
def procCwd : Process where
  filename := "sim/app.exe"
  id := "JCP"
  name := "app.exe"
  workingDirectory := "cwd"
  stdFile := "cwd/app.log"
  processHandler := some none

/-- The world trace left by constructing `procCwd` from an empty world. -/
def worldCwd : World where
  events := [.openFile "cwd/app.log"]
  logs := [.warning ("No working directory configured for process: \x22" ++ "app.exe" ++
             "\x22 Current working directory will be used: \x22" ++ "cwd" ++ "\x22"),
           .info ("New process created: \x22" ++ "sim/app.exe" ++ "\x22")]

/-- The process constructed for `sim/fail.exe` (whose spawn fails in the
test environment). -/
def procFail : Process where
  filename := "sim/fail.exe"
  id := "JF"
  name := "fail.exe"
  workingDirectory := "sim"
  stdFile := "sim/fail.log"
  processHandler := some none

/-- The world trace left by constructing `procFail` from an empty world. -/
def worldFail : World where
  events := [.openFile "sim/fail.log"]
  logs := [.info ("New process created: \x22" ++ "sim/fail.exe" ++ "\x22")]

/-- The world trace left by constructing and starting `sim/app.exe` from
an empty world. -/
def worldDup : World where
  events := [.openFile "sim/app.log",
             .spawn "sim/app.exe" "sim" "sim/app.log" "sim/app.log" 7]
  logs := [.info ("New process created: \x22" ++ "sim/app.exe" ++ "\x22"),
           .info ("Process \x22" ++ "app.exe" ++ "\x22 started")]

/-- C1: for a process on which start() previously succeeded (it holds a
live OS handle), stop() first sends the graceful terminate signal, then
waits up to 20 seconds; when the wait succeeds no kill is issued, when
it times out the process is killed; in both cases the handler attribute
is discarded afterwards. -/
theorem claim_C1_stop_terminate_wait_kill_release
    (env : OSEnv) (p : Process) (h : Nat) (w : World)
    (hh : p.processHandler = some (some h)) :
    (Process.stop env p w).2 = .ok { p with processHandler := none } ∧
    ((env.waitResult h 20).isSome = true →
      (Process.stop env p w).1.events = w.events ++ [.terminate h, .wait h 20]) ∧
    (env.waitResult h 20 = none →
      (Process.stop env p w).1.events = w.events ++ [.terminate h, .wait h 20, .kill h]) := by
  obtain ⟨fn, i, nm, wd, sf, ph⟩ := p
  simp only at hh
  subst hh
  unfold Process.stop
  cases hw : env.waitResult h 20 <;> simp [hw]

/-- Witness for C1 at a concrete running process. -/
theorem claim_C1_witness :
    (Process.stop testEnv procRun World.empty).2 = .ok { procRun with processHandler := none } :=
  (claim_C1_stop_terminate_wait_kill_release testEnv procRun 7 World.empty rfl).1

/-- C2: when the executable path does not exist, or the explicitly
supplied working directory does not exist, construction raises
`FileNotFoundError` citing the missing path and leaves the world
untouched — in particular no `openFile` event occurs, so no log file is
created. -/
theorem claim_C2_construction_notfound_no_log
    (env : OSEnv) (f i d : String) (wdOpt : Option String) (w : World) :
    (env.pathExists f = false →
      Process.init env f i wdOpt w =
        (w, .error (.fileNotFound ("File does not exists: \x22" ++ f ++ "\x22")))) ∧
    (env.pathExists f = true → env.pathExists d = false →
      Process.init env f i (some d) w =
        (w, .error (.fileNotFound ("Working directory does not exists: \x22" ++ d ++ "\x22")))) := by
  constructor
  · intro hf
    unfold Process.init Process.validateFileName
    simp [hf]
  · intro hf hd
    unfold Process.init Process.validateFileName Process.validateWorkingDirectory
    simp [hf, hd]

/-- Witness for C2: a missing executable and a missing working directory
in the concrete test environment. -/
theorem claim_C2_witness :
    Process.init testEnv "nope.exe" "J" (some "sim") World.empty =
      (World.empty, .error (.fileNotFound ("File does not exists: \x22" ++ "nope.exe" ++ "\x22"))) ∧
    Process.init testEnv "sim/app.exe" "J" (some "bad") World.empty =
      (World.empty, .error (.fileNotFound ("Working directory does not exists: \x22" ++ "bad" ++ "\x22"))) :=
  ⟨(claim_C2_construction_notfound_no_log testEnv "nope.exe" "J" "bad" (some "sim") World.empty).1
      (by decide),
   (claim_C2_construction_notfound_no_log testEnv "sim/app.exe" "J" "bad" (some "bad") World.empty).2
      (by decide) (by decide)⟩

/-- Inversion on a successful construction: the built process holds the
caller's id and its handler attribute holds `None`. -/
theorem Process.init_ok_fields (env : OSEnv) (f i : String) (wdOpt : Option String)
    (w w1 : World) (q : Process)
    (hq : Process.init env f i wdOpt w = (w1, .ok q)) :
    q.processHandler = some none ∧ q.id = i := by
  unfold Process.init at hq
  split at hq
  · simp at hq
  · split at hq
    · dsimp only at hq
      split at hq
      · simp at hq
      · simp only [Prod.mk.injEq, Except.ok.injEq] at hq
        obtain ⟨-, hq⟩ := hq
        subst hq
        exact ⟨rfl, rfl⟩
    · split at hq
      · dsimp only at hq
        split at hq
        · simp at hq
        · simp only [Prod.mk.injEq, Except.ok.injEq] at hq
          obtain ⟨-, hq⟩ := hq
          subst hq
          exact ⟨rfl, rfl⟩
      · simp at hq

/-- C3: when construction succeeds but the spawn fails, the registry
operation surfaces an `AssertionError` naming the display name and the
failure detail, the manager's container is unchanged (the process is not
inserted), and the returned process's OS handle is absent (`None`). -/
theorem claim_C3_start_failure_not_registered
    (env : OSEnv) (mgr : ProcessManager) (f i : String) (wdOpt : Option String)
    (w w1 : World) (proc : Process) (detail : String)
    (hinit : Process.init env f i wdOpt w = (w1, .ok proc))
    (hspawn : env.spawnResult proc.filename proc.workingDirectory = .error detail) :
    ProcessManager.startProcessFromFileName env mgr f i wdOpt w =
      (w1, mgr, some proc,
       some (.assertionError
         ("Process \x22" ++ proc.name ++ "\x22 could not be started: " ++ detail))) ∧
    proc.getProcessHandler = .ok none := by
  have hfields := Process.init_ok_fields env f i wdOpt w w1 proc hinit
  have hpe : { proc with processHandler := some none } = proc := by
    obtain ⟨a, b, c, d, e, ph⟩ := proc
    simp only at hfields
    simp [hfields.1]
  constructor
  · simp only [ProcessManager.startProcessFromFileName, hinit, Process.start, hspawn, hpe]
  · simp [Process.getProcessHandler, hfields.1]

/-- Witness for C3: starting `sim/fail.exe` in the test environment. -/
theorem claim_C3_witness :
    ProcessManager.startProcessFromFileName testEnv ProcessManager.new
        "sim/fail.exe" "JF" (some "sim") World.empty =
      (worldFail, ProcessManager.new, some procFail,
       some (.assertionError
         ("Process \x22" ++ "fail.exe" ++ "\x22 could not be started: " ++ "spawn failed"))) :=
  (claim_C3_start_failure_not_registered testEnv ProcessManager.new
    "sim/fail.exe" "JF" (some "sim") World.empty worldFail procFail "spawn failed"
    rfl rfl).1

/-- Absence of the key in the container means `dict.pop` has nothing to
remove. -/
theorem dictPop_eq_none (i : String) (c : List (String × Process))
    (h : dictMem i c = false) : dictPop i c = none := by
  induction c with
  | nil => rfl
  | cons kv rest ih =>
    obtain ⟨k, v⟩ := kv
    simp only [dictMem, Bool.or_eq_false_iff, decide_eq_false_iff_not] at h
    simp [dictPop, h.1, ih h.2]

/-- C4: `stopProcess` on an absent id returns the NotFound message naming
the id and leaves the manager (same entries, same count) and the world
unchanged; on a present id (whose process holds a live handle) it
removes exactly that entry, returns no error, and performs the stop
escalation (terminate, bounded wait, kill only on timeout) on the
removed process's handle. -/
theorem claim_C4_stopProcess_lookup_remove
    (env : OSEnv) (mgr : ProcessManager) (i : String) (w : World) :
    (dictMem i mgr.processContainer = false →
      ProcessManager.stopProcess env mgr i w =
        (w, mgr, .ok (some ("No process ID with name: \x22" ++ i ++ "\x22")))) ∧
    (∀ proc rest h, dictPop i mgr.processContainer = some (proc, rest) →
      proc.processHandler = some (some h) →
      (ProcessManager.stopProcess env mgr i w).2.1 = { mgr with processContainer := rest } ∧
      (ProcessManager.stopProcess env mgr i w).2.2 = .ok none ∧
      (ProcessManager.stopProcess env mgr i w).1.events =
        w.events ++ [.terminate h, .wait h 20] ++
          (if (env.waitResult h 20).isSome then [] else [.kill h])) := by
  constructor
  · intro habs
    simp [ProcessManager.stopProcess, dictPop_eq_none i mgr.processContainer habs]
  · intro proc rest h hpop hh
    obtain ⟨fn, pid, nm, wd, sf, ph⟩ := proc
    simp only at hh
    subst hh
    simp only [ProcessManager.stopProcess, hpop]
    unfold Process.stop
    cases hw : env.waitResult h 20 <;> simp [hw]

/-- Witness for C4: removing the present id `JCP` and rejecting the
absent id `nope` on a concrete manager. -/
theorem claim_C4_witness :
    (ProcessManager.stopProcess testEnv mgrDup "JCP" World.empty).2.1 =
      { mgrDup with processContainer := [] } ∧
    ProcessManager.stopProcess testEnv mgrDup "nope" World.empty =
      (World.empty, mgrDup, .ok (some ("No process ID with name: \x22" ++ "nope" ++ "\x22"))) :=
  ⟨((claim_C4_stopProcess_lookup_remove testEnv mgrDup "JCP" World.empty).2
      procRun [] 7 rfl rfl).1,
   (claim_C4_stopProcess_lookup_remove testEnv mgrDup "nope" World.empty).1 (by decide)⟩

/-- Stopping one process only appends to the event trace. -/
theorem Process.stop_events_superset (env : OSEnv) (p : Process) (w : World) :
    ∀ x ∈ w.events, x ∈ (Process.stop env p w).1.events := by
  intro x hx
  unfold Process.stop
  rcases p.processHandler with - | ⟨- | h⟩
  · exact hx
  · exact hx
  · cases hw : env.waitResult h 20 <;> simp [hw, hx]

/-- Stopping a process holding handle `h` records a terminate event for
`h`. -/
theorem Process.stop_emits_terminate (env : OSEnv) (p : Process) (w : World) (h : Nat)
    (hh : p.processHandler = some (some h)) :
    OSEvent.terminate h ∈ (Process.stop env p w).1.events := by
  obtain ⟨fn, pid, nm, wd, sf, ph⟩ := p
  simp only at hh
  subst hh
  unfold Process.stop
  cases hw : env.waitResult h 20 <;> simp [hw]

/-- The stop loop only appends to the event trace. -/
theorem ProcessManager.stopEach_events_superset (env : OSEnv)
    (l : List (String × Process)) :
    ∀ (w : World), ∀ x ∈ w.events, x ∈ (ProcessManager.stopEach env l w).1.events := by
  induction l with
  | nil => intro w x hx; exact hx
  | cons kv rest ih =>
    intro w x hx
    obtain ⟨k, p⟩ := kv
    unfold ProcessManager.stopEach
    cases hs : Process.stop env p w with
    | mk w1 r =>
      have hx1 : x ∈ w1.events := by
        have := Process.stop_events_superset env p w x hx
        rw [hs] at this
        exact this
      cases r with
      | ok p1 =>
        cases hrest : ProcessManager.stopEach env rest w1 with
        | mk w2 pr =>
          have := ih w1 x hx1
          rw [hrest] at this
          simp [hrest, this]
      | error e => simpa using hx1

/-- Stopping a process that holds a live handle succeeds, discards the
handler attribute, and performs the terminate / bounded wait / kill
escalation on the event trace. -/
theorem Process.stop_ok (env : OSEnv) (fn pid nm wd sf : String) (h : Nat) (w : World) :
    ∃ w1, Process.stop env ⟨fn, pid, nm, wd, sf, some (some h)⟩ w =
        (w1, .ok ⟨fn, pid, nm, wd, sf, none⟩) ∧
      w1.events = w.events ++ [.terminate h, .wait h 20] ++
        (if (env.waitResult h 20).isSome then [] else [.kill h]) := by
  cases hw : env.waitResult h 20 with
  | none =>
    refine ⟨{ w with
        events := w.events ++ [.terminate h, .wait h 20, .kill h]
        logs := w.logs ++ [.info ("Process \x22" ++ nm ++ "\x22 killed")] }, ?_, ?_⟩
    · simp [Process.stop, hw]
    · simp [hw]
  | some code =>
    refine ⟨{ w with
        events := w.events ++ [.terminate h, .wait h 20]
        logs := w.logs ++ [.info ("Process \x22" ++ nm ++
          "\x22 terminated with result code: " ++ toString code)] }, ?_, ?_⟩
    · simp [Process.stop, hw]
    · simp [hw]

/-- When every process in the loop holds a live handle, the stop loop
raises nothing and records a terminate event for each handle held. -/
theorem ProcessManager.stopEach_ok (env : OSEnv) (l : List (String × Process)) :
    ∀ (w : World), (∀ e ∈ l, ∃ h, e.2.processHandler = some (some h)) →
      (ProcessManager.stopEach env l w).2.2 = none ∧
      ∀ e ∈ l, ∀ h, e.2.processHandler = some (some h) →
        OSEvent.terminate h ∈ (ProcessManager.stopEach env l w).1.events := by
  induction l with
  | nil => intro w _; exact ⟨rfl, by simp⟩
  | cons kv rest ih =>
    intro w hall
    obtain ⟨k, p⟩ := kv
    obtain ⟨h0, hh0⟩ := hall (k, p) (by simp)
    have hallRest : ∀ e ∈ rest, ∃ h, e.2.processHandler = some (some h) :=
      fun e he => hall e (by simp [he])
    obtain ⟨fn, pid, nm, wd, sf, ph⟩ := p
    simp only at hh0
    subst hh0
    obtain ⟨w1, hs, hw1⟩ := Process.stop_ok env fn pid nm wd sf h0 w
    simp only [ProcessManager.stopEach, hs]
    rcases hrest : ProcessManager.stopEach env rest w1 with ⟨w2, rest', e⟩
    constructor
    · have := (ih w1 hallRest).1
      rw [hrest] at this
      exact this
    · intro e' he' h hh
      rcases List.mem_cons.mp he' with rfl | htail
      · simp only [Option.some.injEq] at hh
        subst hh
        have hterm : OSEvent.terminate h0 ∈ w1.events := by simp [hw1]
        have := ProcessManager.stopEach_events_superset env rest w1
          (OSEvent.terminate h0) hterm
        rw [hrest] at this
        exact this
      · have := (ih w1 hallRest).2 e' htail h hh
        rw [hrest] at this
        exact this

/-- C5: `stopAllProcesses` on an empty container returns the EmptyState
notice and changes nothing; on a non-empty container (of started
processes, each holding a live handle) it stops every contained process
(a terminate event is recorded for each held handle), clears the
container, and returns no error. -/
theorem claim_C5_stopAll_clear_or_empty_notice
    (env : OSEnv) (mgr : ProcessManager) (w : World)
    (hall : ∀ e ∈ mgr.processContainer, ∃ h, e.2.processHandler = some (some h)) :
    (mgr.processContainer = [] →
      ProcessManager.stopAllProcesses env mgr w =
        (w, mgr, .ok (some "There is no simulation process currently running to be stopped"))) ∧
    (mgr.processContainer ≠ [] →
      (ProcessManager.stopAllProcesses env mgr w).2.1 = { mgr with processContainer := [] } ∧
      (ProcessManager.stopAllProcesses env mgr w).2.2 = .ok none ∧
      ∀ e ∈ mgr.processContainer, ∀ h, e.2.processHandler = some (some h) →
        OSEvent.terminate h ∈ (ProcessManager.stopAllProcesses env mgr w).1.events) := by
  constructor
  · intro hemp
    simp [ProcessManager.stopAllProcesses, hemp]
  · intro hne
    rcases hcont : mgr.processContainer with - | ⟨kv, rest⟩
    · exact absurd hcont hne
    · have hall2 : ∀ e ∈ kv :: rest, ∃ h, e.2.processHandler = some (some h) := by
        rw [← hcont]
        exact hall
      have hok := ProcessManager.stopEach_ok env (kv :: rest) w hall2
      unfold ProcessManager.stopAllProcesses
      rw [hcont]
      rcases hse : ProcessManager.stopEach env (kv :: rest) w with ⟨w1, entries, e⟩
      rw [hse] at hok
      obtain ⟨he, hterm⟩ := hok
      simp only at he
      subst he
      simp only [List.isEmpty_cons, Bool.false_eq_true, if_false, hse]
      refine ⟨trivial, trivial, ?_⟩
      intro e' he' h hh
      exact hterm e' he' h hh

/-- Witness for C5: stop-all on an empty manager and on a concrete
one-entry manager. -/
theorem claim_C5_witness :
    ProcessManager.stopAllProcesses testEnv ProcessManager.new World.empty =
      (World.empty, ProcessManager.new,
       .ok (some "There is no simulation process currently running to be stopped")) ∧
    (ProcessManager.stopAllProcesses testEnv mgrDup World.empty).2.1 =
      { mgrDup with processContainer := [] } :=
  ⟨(claim_C5_stopAll_clear_or_empty_notice testEnv ProcessManager.new World.empty
      (by intro e he; simp [ProcessManager.new] at he)).1 rfl,
   ((claim_C5_stopAll_clear_or_empty_notice testEnv mgrDup World.empty
      (by intro e he
          simp [mgrDup] at he
          subst he
          exact ⟨7, rfl⟩)).2 (by simp [mgrDup])).1⟩

/-- Membership test of the dictionary model agrees with membership in
the key list. -/
theorem dictMem_iff_mem_keys (k : String) (c : List (String × Process)) :
    dictMem k c = true ↔ k ∈ c.map Prod.fst := by
  induction c with
  | nil => simp [dictMem]
  | cons kv rest ih =>
    obtain ⟨k', v⟩ := kv
    simp only [dictMem, Bool.or_eq_true, decide_eq_true_eq, List.map_cons,
      List.mem_cons, ih]
    constructor
    · rintro (h | h)
      · exact Or.inl h.symm
      · exact Or.inr h
    · rintro (h | h)
      · exact Or.inl h.symm
      · exact Or.inr h

/-- Inserting at a key already present leaves the key list unchanged. -/
theorem dictInsert_keys_mem (k : String) (v : Process) (c : List (String × Process))
    (h : dictMem k c = true) :
    (dictInsert k v c).map Prod.fst = c.map Prod.fst := by
  induction c with
  | nil => simp [dictMem] at h
  | cons kv rest ih =>
    obtain ⟨k', v'⟩ := kv
    by_cases hk : k' = k
    · simp [dictInsert, hk]
    · simp only [dictMem, Bool.or_eq_true, decide_eq_true_eq] at h
      rcases h with h | h
      · exact absurd h hk
      · simp [dictInsert, hk, ih h]

/-- Inserting at a fresh key appends it to the key list. -/
theorem dictInsert_keys_notmem (k : String) (v : Process) (c : List (String × Process))
    (h : dictMem k c = false) :
    (dictInsert k v c).map Prod.fst = c.map Prod.fst ++ [k] := by
  induction c with
  | nil => simp [dictInsert]
  | cons kv rest ih =>
    obtain ⟨k', v'⟩ := kv
    simp only [dictMem, Bool.or_eq_false_iff, decide_eq_false_iff_not] at h
    simp [dictInsert, h.1, ih h.2]

/-- Dictionary insertion preserves key uniqueness. -/
theorem dictInsert_nodup (k : String) (v : Process) (c : List (String × Process))
    (h : keysNodup c) : keysNodup (dictInsert k v c) := by
  unfold keysNodup at h
  cases hm : dictMem k c
  · unfold keysNodup
    rw [dictInsert_keys_notmem k v c hm]
    have hk : k ∉ c.map Prod.fst := by
      intro hmem
      rw [← dictMem_iff_mem_keys] at hmem
      simp [hm] at hmem
    simp [List.nodup_append, h, hk]
  · unfold keysNodup
    rw [dictInsert_keys_mem k v c hm]
    exact h

/-- Looking up the key just inserted yields the inserted value. -/
theorem dictLookup_dictInsert_self (k : String) (v : Process)
    (c : List (String × Process)) : dictLookup k (dictInsert k v c) = some v := by
  induction c with
  | nil => simp [dictInsert, dictLookup]
  | cons kv rest ih =>
    obtain ⟨k', v'⟩ := kv
    by_cases hk : k' = k
    · simp [dictInsert, dictLookup, hk]
    · simp [dictInsert, dictLookup, hk, ih]

/-- Popping a key leaves a key list that is a sublist of the original. -/
theorem dictPop_keys_sublist (k : String) (c : List (String × Process)) :
    ∀ v rest, dictPop k c = some (v, rest) →
      List.Sublist (rest.map Prod.fst) (c.map Prod.fst) := by
  induction c with
  | nil => intro v rest h; simp [dictPop] at h
  | cons kv c' ih =>
    intro v rest h
    obtain ⟨k', v'⟩ := kv
    by_cases hk : k' = k
    · simp only [dictPop] at h
      rw [if_pos hk] at h
      injection h with h1
      injection h1 with h2 h3
      subst h3
      exact List.sublist_cons_self _ _
    · rcases hpop : dictPop k c' with - | ⟨v2, rest2⟩
      · simp only [dictPop] at h
        rw [if_neg hk, hpop] at h
        simp only [Option.map] at h
        exact Option.noConfusion h
      · simp only [dictPop] at h
        rw [if_neg hk, hpop] at h
        simp only [Option.map] at h
        injection h with h1
        injection h1 with h2 h3
        subst h3
        simpa using (ih v2 rest2 hpop).cons₂ k'

/-- The started process carries the same id as the constructed one. -/
theorem Process.start_id (env : OSEnv) (p : Process) (w : World) :
    (Process.start env p w).2.1.id = p.id := by
  unfold Process.start
  cases hs : env.spawnResult p.filename p.workingDirectory <;> simp

/-- The stop loop preserves the key list of the container entries. -/
theorem ProcessManager.stopEach_keys (env : OSEnv) (l : List (String × Process)) :
    ∀ w, ((ProcessManager.stopEach env l w).2.1).map Prod.fst = l.map Prod.fst := by
  induction l with
  | nil => intro w; rfl
  | cons kv rest ih =>
    intro w
    obtain ⟨k, p⟩ := kv
    unfold ProcessManager.stopEach
    rcases hs : Process.stop env p w with ⟨w1, r⟩
    cases r with
    | ok p1 =>
      dsimp only
      rcases hrest : ProcessManager.stopEach env rest w1 with ⟨w2, pr⟩
      obtain ⟨rest', e⟩ := pr
      have := ih w1
      rw [hrest] at this
      simpa using this
    | error e => simp

/-- `startProcessFromFileName` preserves key uniqueness. -/
theorem ProcessManager.start_nodup (env : OSEnv) (mgr : ProcessManager)
    (f i : String) (wdOpt : Option String) (w : World)
    (h : keysNodup mgr.processContainer) :
    keysNodup ((ProcessManager.startProcessFromFileName env mgr f i wdOpt w).2.1.processContainer) := by
  unfold ProcessManager.startProcessFromFileName
  rcases hinit : Process.init env f i wdOpt w with ⟨w1, r⟩
  cases r with
  | error e => simpa using h
  | ok proc =>
    dsimp only
    rcases hstart : Process.start env proc w1 with ⟨w2, pr⟩
    obtain ⟨proc2, em⟩ := pr
    cases em with
    | some d => simpa using h
    | none => exact dictInsert_nodup _ _ _ h

/-- `stopProcess` preserves key uniqueness. -/
theorem ProcessManager.stopProcess_nodup (env : OSEnv) (mgr : ProcessManager)
    (i : String) (w : World) (h : keysNodup mgr.processContainer) :
    keysNodup ((ProcessManager.stopProcess env mgr i w).2.1.processContainer) := by
  unfold ProcessManager.stopProcess
  rcases hpop : dictPop i mgr.processContainer with - | ⟨proc, rest⟩
  · simpa using h
  · dsimp only
    have hsub := dictPop_keys_sublist i mgr.processContainer proc rest hpop
    rcases hstop : Process.stop env proc w with ⟨w1, r⟩
    cases r with
    | ok p1 => exact List.Nodup.sublist hsub h
    | error e => exact List.Nodup.sublist hsub h

/-- `stopAllProcesses` preserves key uniqueness. -/
theorem ProcessManager.stopAll_nodup (env : OSEnv) (mgr : ProcessManager)
    (w : World) (h : keysNodup mgr.processContainer) :
    keysNodup ((ProcessManager.stopAllProcesses env mgr w).2.1.processContainer) := by
  unfold ProcessManager.stopAllProcesses
  by_cases hemp : mgr.processContainer.isEmpty
  · simpa [hemp] using h
  · simp only [hemp, Bool.false_eq_true, if_false]
    rcases hse : ProcessManager.stopEach env mgr.processContainer w with ⟨w1, pr⟩
    obtain ⟨entries, e⟩ := pr
    have hkeys := ProcessManager.stopEach_keys env mgr.processContainer w
    rw [hse] at hkeys
    cases e with
    | none => simp [keysNodup]
    | some ex =>
      unfold keysNodup
      simpa [hkeys] using h

/-- One registry operation preserves key uniqueness. -/
theorem ProcessManager.applyOp_nodup (env : OSEnv) (st : ProcessManager × World)
    (op : MgrOp) (h : keysNodup st.1.processContainer) :
    keysNodup ((ProcessManager.applyOp env st op).1.processContainer) := by
  cases op with
  | startOp f i wd => exact ProcessManager.start_nodup env st.1 f i wd st.2 h
  | stopOp i => exact ProcessManager.stopProcess_nodup env st.1 i st.2 h
  | stopAllOp => exact ProcessManager.stopAll_nodup env st.1 st.2 h

/-- Any sequence of registry operations preserves key uniqueness. -/
theorem ProcessManager.runOps_nodup (env : OSEnv) (ops : List MgrOp) :
    ∀ st : ProcessManager × World, keysNodup st.1.processContainer →
      keysNodup ((ProcessManager.runOps env ops st).1.processContainer) := by
  induction ops with
  | nil => intro st h; exact h
  | cons op rest ih =>
    intro st h
    exact ih _ (ProcessManager.applyOp_nodup env st op h)

/-- C6: starting from a fresh manager, no sequence of registry operations
ever produces two container entries with the same id; and a successful
start whose id is already present silently overwrites that entry (the
container becomes the Python-dict insertion, the lookup at the id yields
the new process, and the key list is unchanged — no uniqueness check). -/
theorem claim_C6_registry_unique_ids_overwrite (env : OSEnv) :
    (∀ ops : List MgrOp,
      keysNodup (ProcessManager.runOps env ops (ProcessManager.new, World.empty)).1.processContainer) ∧
    (∀ mgr f i wdOpt w w1 mgr1 proc,
      ProcessManager.startProcessFromFileName env mgr f i wdOpt w = (w1, mgr1, some proc, none) →
      proc.id = i ∧
      mgr1.processContainer = dictInsert i proc mgr.processContainer ∧
      (dictMem i mgr.processContainer = true →
        dictLookup i mgr1.processContainer = some proc ∧
        mgr1.processContainer.map Prod.fst = mgr.processContainer.map Prod.fst)) := by
  constructor
  · intro ops
    exact ProcessManager.runOps_nodup env ops (ProcessManager.new, World.empty)
      (by simp [keysNodup, ProcessManager.new])
  · intro mgr f i wdOpt w w1 mgr1 proc heq
    unfold ProcessManager.startProcessFromFileName at heq
    split at heq
    · simp at heq
    · rename_i wA procA0 heqInit
      split at heq
      · simp at heq
      · rename_i wB procB heqStart
        simp only [Prod.mk.injEq, Option.some.injEq] at heq
        obtain ⟨-, hmgr1, hp, -⟩ := heq
        subst hmgr1
        have hid0 : procA0.id = i :=
          (Process.init_ok_fields env f i wdOpt w wA procA0 heqInit).2
        have hid2 : procB.id = procA0.id := by
          have hsi := Process.start_id env procA0 wA
          rw [heqStart] at hsi
          exact hsi
        have hid : procB.id = i := hid2.trans hid0
        rw [← hp]
        refine ⟨hid, by rw [hid], ?_⟩
        intro hmem
        constructor
        · rw [hid]
          exact dictLookup_dictInsert_self i procB mgr.processContainer
        · rw [hid]
          exact dictInsert_keys_mem i procB mgr.processContainer hmem

/-- Witness for C6: a duplicate-id start on a concrete manager already
holding id `JCP` succeeds and the lookup yields the newly started
process. -/
theorem claim_C6_witness :
    dictLookup "JCP" mgrDup.processContainer = some procRun ∧
    procRun.id = "JCP" :=
  ⟨(((claim_C6_registry_unique_ids_overwrite testEnv).2 mgrDup "sim/app.exe" "JCP"
      (some "sim") World.empty worldDup mgrDup procRun rfl).2.2 rfl).1,
   ((claim_C6_registry_unique_ids_overwrite testEnv).2 mgrDup "sim/app.exe" "JCP"
      (some "sim") World.empty worldDup mgrDup procRun rfl).1⟩

/-- C7: for an executable whose base name splits on the dot into a stem
and an extension, successful construction opens in write mode — and
records the creation of — the log file
`normpath(join(workingDirectory, stem + ".log"))` (the base name with
its extension stripped plus `.log`), and a subsequent successful start
passes that same file as both the stdout and the stderr stream of the
spawned process. -/
theorem claim_C7_log_file_derivation_and_redirection
    (env : OSEnv) (f i d n ext : String) (w : World)
    (hf : env.pathExists f = true)
    (hd : env.pathExists d = true)
    (hsplit : splitDot (env.basename (env.normpath f)) = [n, ext])
    (hopen : env.openOk (env.normpath (env.joinPath (env.normpath d)
      (n ++ Process.STD_FILE_EXT))) = true) :
    Process.init env f i (some d) w =
      ({ w with
          events := w.events ++ [.openFile (env.normpath (env.joinPath (env.normpath d)
            (n ++ Process.STD_FILE_EXT)))]
          logs := w.logs ++ [.info ("New process created: \x22" ++ env.normpath f ++ "\x22")] },
       .ok { filename := env.normpath f, id := i, name := env.basename (env.normpath f),
             workingDirectory := env.normpath d,
             stdFile := env.normpath (env.joinPath (env.normpath d) (n ++ Process.STD_FILE_EXT)),
             processHandler := some none }) ∧
    (∀ (p : Process) (w2 : World) (h : Nat),
      p.stdFile = env.normpath (env.joinPath (env.normpath d) (n ++ Process.STD_FILE_EXT)) →
      env.spawnResult p.filename p.workingDirectory = .ok h →
      (Process.start env p w2).1.events = w2.events ++
        [.spawn p.filename p.workingDirectory
          (env.normpath (env.joinPath (env.normpath d) (n ++ Process.STD_FILE_EXT)))
          (env.normpath (env.joinPath (env.normpath d) (n ++ Process.STD_FILE_EXT))) h]) := by
  constructor
  · simp [Process.init, Process.validateFileName, Process.validateWorkingDirectory,
      Process.configureStdFile, hf, hd, hsplit, hopen]
  · intro p w2 h hstd hspawn
    simp [Process.start, hspawn, hstd]

/-- Witness for C7: constructing `sim/app.exe` in directory `sim` yields
the log file `sim/app.log`. -/
theorem claim_C7_witness :
    Process.init testEnv "sim/app.exe" "JCP" (some "sim") World.empty =
      (worldApp, .ok procA) :=
  (claim_C7_log_file_derivation_and_redirection testEnv "sim/app.exe" "JCP" "sim"
    "app" "exe" World.empty rfl rfl rfl rfl).1

/-- C8: for an existing executable whose base name does not split into
exactly two dot-separated pieces (extensionless name, or several dots),
construction fails with the tuple-unpacking `ValueError` — an error
class that is neither `FileNotFoundError` nor an IO failure — even when
every path involved exists. -/
theorem claim_C8_basename_split_value_error
    (env : OSEnv) (f i : String) (wdOpt : Option String) (w : World)
    (hf : env.pathExists f = true)
    (hwd : ∀ d, wdOpt = some d → env.pathExists d = true)
    (hsplit : (splitDot (env.basename (env.normpath f))).length ≠ 2) :
    exceptKind (Process.init env f i wdOpt w).2 = some "ValueError" := by
  rcases hp : splitDot (env.basename (env.normpath f)) with - | ⟨a, - | ⟨b, - | ⟨c, t⟩⟩⟩
  · cases wdOpt with
    | none =>
      simp [Process.init, Process.validateFileName, Process.configureStdFile,
        hf, hp, exceptKind, PyError.kind]
    | some d =>
      simp [Process.init, Process.validateFileName, Process.validateWorkingDirectory,
        Process.configureStdFile, hf, hwd d rfl, hp, exceptKind, PyError.kind]
  · cases wdOpt with
    | none =>
      simp [Process.init, Process.validateFileName, Process.configureStdFile,
        hf, hp, exceptKind, PyError.kind]
    | some d =>
      simp [Process.init, Process.validateFileName, Process.validateWorkingDirectory,
        Process.configureStdFile, hf, hwd d rfl, hp, exceptKind, PyError.kind]
  · rw [hp] at hsplit
    simp at hsplit
  · cases wdOpt with
    | none =>
      simp [Process.init, Process.validateFileName, Process.configureStdFile,
        hf, hp, exceptKind, PyError.kind]
    | some d =>
      simp [Process.init, Process.validateFileName, Process.validateWorkingDirectory,
        Process.configureStdFile, hf, hwd d rfl, hp, exceptKind, PyError.kind]

/-- Witness for C8: the extensionless executable `sim/plain`. -/
theorem claim_C8_witness :
    exceptKind (Process.init testEnv "sim/plain" "JP" (some "sim") World.empty).2 =
      some "ValueError" :=
  claim_C8_basename_split_value_error testEnv "sim/plain" "JP" (some "sim") World.empty
    rfl (by intro d hd; cases hd; rfl) (by decide)

/-- C9 counterexample: on a concrete process, the handle attribute holds
null before start and the live handle after start, but after stop the
attribute has been deleted (`del`), so observing it raises
`AttributeError` — it does not yield the null value held before start,
refuting the claim's final clause. -/
theorem claim_C9_counterexample :
    procA.getProcessHandler = .ok none ∧
    (Process.start testEnv procA World.empty).2.1 = procRun ∧
    (Process.stop testEnv procRun World.empty).2 =
      .ok { procA with processHandler := none } ∧
    Process.getProcessHandler { procA with processHandler := none } ≠
      procA.getProcessHandler := by
  refine ⟨rfl, rfl, rfl, ?_⟩
  intro hcon
  simp [Process.getProcessHandler, procA] at hcon

/-- C9 (amended): the handle attribute holds null before a successful
start and the live handle between a successful start and the
corresponding stop; stop deletes the attribute with `del`, so observing
it after stop raises `AttributeError` instead of yielding the null value
held before start. -/
theorem claim_C9_amended_handle_lifecycle
    (env : OSEnv) (f i : String) (wdOpt : Option String) (w w1 : World)
    (q : Process) (h : Nat)
    (hinit : Process.init env f i wdOpt w = (w1, .ok q))
    (hspawn : env.spawnResult q.filename q.workingDirectory = .ok h) :
    q.getProcessHandler = .ok none ∧
    (Process.start env q w1).2.1.getProcessHandler = .ok (some h) ∧
    ∀ (w2 w3 : World) (r : Process),
      Process.stop env (Process.start env q w1).2.1 w2 = (w3, .ok r) →
      r.getProcessHandler =
        .error (.attributeError "Process object has no attribute processHandler") := by
  have hph := (Process.init_ok_fields env f i wdOpt w w1 q hinit).1
  refine ⟨by simp [Process.getProcessHandler, hph], ?_, ?_⟩
  · simp [Process.start, hspawn, Process.getProcessHandler]
  · intro w2 w3 r hstop
    have hp1 : (Process.start env q w1).2.1 = { q with processHandler := some (some h) } := by
      simp [Process.start, hspawn]
    rw [hp1] at hstop
    obtain ⟨fn, pid, nm, wd, sf, ph⟩ := q
    obtain ⟨w4, hs, -⟩ := Process.stop_ok env fn pid nm wd sf h w2
    dsimp only at hstop
    rw [hs] at hstop
    injection hstop with hw hv
    injection hv with hr
    rw [← hr]
    rfl

/-- Witness for the amended C9 at a concrete construction and spawn. -/
theorem claim_C9_amended_witness :
    procA.getProcessHandler = .ok none :=
  (claim_C9_amended_handle_lifecycle testEnv "sim/app.exe" "JCP" (some "sim")
    World.empty worldApp procA 7 rfl rfl).1

/-- C10: constructing with an existing executable and an omitted working
directory succeeds, the effective working directory is the caller's
current directory, and exactly one warning observation is appended; the
environment is arbitrary — in particular nothing requires the current
directory to exist, so no existence check is applied to the substituted
directory (the witness uses an environment whose current directory does
not exist). -/
theorem claim_C10_default_working_directory
    (env : OSEnv) (f i n ext : String) (w : World)
    (hf : env.pathExists f = true)
    (hsplit : splitDot (env.basename (env.normpath f)) = [n, ext])
    (hopen : env.openOk (env.normpath (env.joinPath env.getcwd
      (n ++ Process.STD_FILE_EXT))) = true) :
    Process.init env f i none w =
      ({ w with
          events := w.events ++ [.openFile (env.normpath (env.joinPath env.getcwd
            (n ++ Process.STD_FILE_EXT)))]
          logs := w.logs ++
            [.warning ("No working directory configured for process: \x22" ++
               env.basename (env.normpath f) ++
               "\x22 Current working directory will be used: \x22" ++ env.getcwd ++ "\x22"),
             .info ("New process created: \x22" ++ env.normpath f ++ "\x22")] },
       .ok { filename := env.normpath f, id := i, name := env.basename (env.normpath f),
             workingDirectory := env.getcwd,
             stdFile := env.normpath (env.joinPath env.getcwd (n ++ Process.STD_FILE_EXT)),
             processHandler := some none }) ∧
    (Process.init env f i none w).1.logs.countP LogEvent.isWarning =
      w.logs.countP LogEvent.isWarning + 1 := by
  have hmain : Process.init env f i none w =
      ({ w with
          events := w.events ++ [.openFile (env.normpath (env.joinPath env.getcwd
            (n ++ Process.STD_FILE_EXT)))]
          logs := w.logs ++
            [.warning ("No working directory configured for process: \x22" ++
               env.basename (env.normpath f) ++
               "\x22 Current working directory will be used: \x22" ++ env.getcwd ++ "\x22"),
             .info ("New process created: \x22" ++ env.normpath f ++ "\x22")] },
       .ok { filename := env.normpath f, id := i, name := env.basename (env.normpath f),
             workingDirectory := env.getcwd,
             stdFile := env.normpath (env.joinPath env.getcwd (n ++ Process.STD_FILE_EXT)),
             processHandler := some none }) := by
    simp [Process.init, Process.validateFileName, Process.configureStdFile,
      hf, hsplit, hopen]
  refine ⟨hmain, ?_⟩
  rw [hmain]
  simp [List.countP_append, List.countP_cons, LogEvent.isWarning]

/-- Witness for C10: constructing `sim/app.exe` with the working
directory omitted, in the environment where the current directory `cwd`
does not exist. -/
theorem claim_C10_witness :
    testEnv.pathExists testEnv.getcwd = false ∧
    Process.init testEnv "sim/app.exe" "JCP" none World.empty = (worldCwd, .ok procCwd) :=
  ⟨by decide,
   (claim_C10_default_working_directory testEnv "sim/app.exe" "JCP" "app" "exe"
     World.empty rfl rfl rfl).1⟩

end Simulation
